import Mathlib

/-!
Verification of the tlogistry registry proxy (main.go and internal/rekor/rekor.go).

The Go program is shallowly embedded: pure computations become Lean functions,
stdlib/external calls (name parsing, HTTP round trips, Fulcio/Rekor clients,
base64/JSON/PEM/x509 decoding, SHA-256) are modelled as explicit oracle inputs
(function-valued environment fields, or `Option`-valued decode-outcome fields on
the entry structures), and Go panics become `Option.none`.
-/

/-- Provenance record returned by the rekor package (`rekor.Info`):
UUID, log index, and integrated time (Unix seconds, `time.Time` modelled as `Int`). -/
structure Info where
  uuid : String
  logIndex : Int
  integratedTime : Int
deriving DecidableEq, Repr

/-- Registry error value (`regError` in main.go): HTTP status, code, message. -/
structure RegError where
  status : Nat
  code : String
  message : String
deriving DecidableEq, Repr

/-- Response body as observed by the client: nothing, the upstream body
streamed through, or the JSON registry-error document written by `serveError`. -/
inductive Body where
  | empty : Body
  | upstream : String → Body
  | errorJSON : String → String → Body
deriving DecidableEq, Repr

/-- The HTTP response the handler produces: status code, headers, body. -/
structure Response where
  status : Nat
  headers : List (String × String)
  body : Body
deriving DecidableEq, Repr

/-- `http.Header.Get`: first value for the key, or `""` when absent. -/
def headerGetD : List (String × String) → String → String
  | [], _ => ""
  | p :: rest, k => if p.1 == k then p.2 else headerGetD rest k

/-- `http.Header.Set`: replace any existing values for the key with the single value. -/
def headerSet (hs : List (String × String)) (k v : String) : List (String × String) :=
  hs.filter (fun p => p.1 != k) ++ [(k, v)]

/-- Go `%q` formatting of a string (quoting; escaping of special characters
inside the string is not modelled). -/
def goQuote (s : String) : String := "\"" ++ s ++ "\""

/-- `serveError` in main.go: writes the status and the registry error schema body;
no upstream headers are copied. -/
def serveErrorResp (re : RegError) : Response :=
  { status := re.status, headers := [], body := Body.errorJSON re.code re.message }

/-- `digestMismatch` in main.go: 400 TAG_INVALID with a message citing both digests. -/
def digestMismatch (tag got want : String) : RegError :=
  { status := 400
    code := "TAG_INVALID"
    message := "tag " ++ goQuote tag ++ " mismatch; got " ++ goQuote got ++ ", want " ++ goQuote want }

/-- `newRegError` in main.go: 500 INTERNAL_ERROR carrying the error text. -/
def newRegError (msg : String) : RegError :=
  { status := 500, code := "INTERNAL_ERROR", message := msg }

/-- Result of `rekor.Get` (`(string, *Info, error)` collapsed into one sum):
an error, no binding found, or a digest with its provenance record. -/
inductive GetResult where
  | err : String → GetResult
  | nothing : GetResult
  | found : String → Info → GetResult
deriving DecidableEq, Repr

namespace rekor

/-- An x509 certificate as far as `rekor.Get` inspects it. The cryptographic
chain building against the Fulcio roots/intermediates with the CodeSigning key
usage is an external library computation, modelled by the boolean field
`chainsToFulcioCodeSigning`; the validity window and the identities are explicit. -/
structure Cert where
  notBefore : Int
  notAfter : Int
  chainsToFulcioCodeSigning : Bool
  emailAddresses : List String
deriving DecidableEq, Repr

/-- Result of `pem.Decode` on the entry's public key bytes: the block's
`x509.ParseCertificate` outcome (`none` = parse error). -/
structure PemBlock where
  cert : Option Cert
deriving DecidableEq, Repr

/-- The `spec` object JSON-decoded from the entry body: the raw `publicKey`
bytes and the outcome of `pem.Decode` on them (`none` = no PEM block). -/
structure SpecPK where
  publicKey : List Nat
  pem : Option PemBlock
deriving DecidableEq, Repr

/-- Base64-decoded entry body: the outcome of `json.Unmarshal` into the
`{Spec.PublicKey}` shape (`none` = unmarshal error). -/
structure Base64Body where
  json : Option SpecPK
deriving DecidableEq, Repr

/-- The raw (non-nil) `le.Body` string: the outcome of
`base64.StdEncoding.DecodeString` (`none` = decode error). -/
structure RawBody where
  base64 : Option Base64Body
deriving DecidableEq, Repr

/-- The attestation document JSON-decoded from `le.Attestation.Data`. -/
structure AttDoc where
  predicateType : String
  digest : String
  tag : String
deriving DecidableEq, Repr

/-- One `LogEntryAnon` as `rekor.Get` inspects it: `body` is `none` when
`le.Body == nil`; `attestation` is `none` when `json.Unmarshal` of the
attestation data fails. -/
structure LogEntryAnon where
  body : Option RawBody
  attestation : Option AttDoc
  logIndex : Int
  integratedTime : Int
deriving DecidableEq, Repr

/-- Response of `GetLogEntryByUUID` for one UUID: the payload map's values. -/
structure GetLogEntryResp where
  payload : List LogEntryAnon
deriving DecidableEq, Repr

/-- `x509.Certificate.Verify` with `VerifyOptions{CurrentTime: clock, Roots:
fulcioRoot, Intermediates: fulcioIntermediates, KeyUsages: [CodeSigning]}`:
succeeds iff the chain builds with the key usage and the clock lies inside the
certificate's validity window (Go rejects when `now.Before(NotBefore) ||
now.After(NotAfter)`). -/
def certVerify (clock : Int) (c : Cert) : Bool :=
  c.chainsToFulcioCodeSigning && decide (c.notBefore ≤ clock) && decide (clock ≤ c.notAfter)

/-- Outcome of processing one search hit inside `rekor.Get`'s loop:
skipped (a `continue`), accepted into the `found` map, or a hard `return` of
an error aborting the whole lookup. -/
inductive EntryOutcome where
  | skip : EntryOutcome
  | accept : String → Info → EntryOutcome
  | err : String → EntryOutcome
deriving DecidableEq, Repr

/-- The body of `rekor.Get`'s loop for one UUID `u`, on the fetched entry `fe`
(`none` = `GetLogEntryByUUID` error), checking the preconditions in source
order: payload cardinality, non-nil body, attestation decode, predicate type,
predicate tag, body base64 decode (hard error), body JSON decode (hard error),
public key presence, PEM decode, certificate parse, chain verification with the
clock set to the certificate's own NotBefore, identity count, identity match. -/
def processEntry (ourEmail tagStr u : String) (fe : Option GetLogEntryResp) : EntryOutcome :=
  match fe with
  | none => EntryOutcome.skip
  | some gresp =>
    match gresp.payload with
    | [le] =>
      match le.body with
      | none => EntryOutcome.skip
      | some rawBody =>
        match le.attestation with
        | none => EntryOutcome.skip
        | some att =>
          if att.predicateType != "tlogistry-fetched" then EntryOutcome.skip
          else if att.tag != tagStr then EntryOutcome.skip
          else
            match rawBody.base64 with
            | none => EntryOutcome.err "decoding Rekor LogEntry body"
            | some b64 =>
              match b64.json with
              | none => EntryOutcome.err "unmarshaling Rekor LogEntry body"
              | some spec =>
                if spec.publicKey.length == 0 then EntryOutcome.skip
                else
                  match spec.pem with
                  | none => EntryOutcome.skip
                  | some block =>
                    match block.cert with
                    | none => EntryOutcome.skip
                    | some cert =>
                      if !certVerify cert.notBefore cert then EntryOutcome.skip
                      else if cert.emailAddresses.length != 1 then EntryOutcome.skip
                      else if cert.emailAddresses.headD "" != ourEmail then EntryOutcome.skip
                      else EntryOutcome.accept att.digest
                        { uuid := u, logIndex := le.logIndex, integratedTime := le.integratedTime }
    | _ => EntryOutcome.skip

/-- Go map assignment `m[k] = v`: replace the value if the key is present,
otherwise add the pair. -/
def assocSet (m : List (String × Info)) (k : String) (v : Info) : List (String × Info) :=
  if m.any (fun p => p.1 == k) then m.map (fun p => if p.1 == k then (k, v) else p)
  else m ++ [(k, v)]

/-- The loop of `rekor.Get` over the search hits, accumulating the `found` map;
an `err` outcome is the Go `return "", nil, err` aborting the loop. -/
def runEntries (ourEmail tagStr : String) (acc : List (String × Info)) :
    List (String × Option GetLogEntryResp) → Except String (List (String × Info))
  | [] => Except.ok acc
  | (u, fe) :: rest =>
    match processEntry ourEmail tagStr u fe with
    | EntryOutcome.skip => runEntries ourEmail tagStr acc rest
    | EntryOutcome.err m => Except.error m
    | EntryOutcome.accept d i => runEntries ourEmail tagStr (assocSet acc d i) rest

/-- `rekor.Get`: the index search result is the association of each returned
UUID with its fetch outcome. Empty search result returns no binding; otherwise
the loop runs, and the `found` map's cardinality decides the result exactly as
the closing `switch len(found)`. (The Fulcio root retrieval, which can only
fail on network errors before any entry is examined, is elided.) -/
def Get (ourEmail tagStr : String) (entries : List (String × Option GetLogEntryResp)) :
    GetResult :=
  if entries.isEmpty then GetResult.nothing
  else
    match runEntries ourEmail tagStr [] entries with
    | Except.error m => GetResult.err m
    | Except.ok found =>
      match found with
      | [] => GetResult.nothing
      | [(d, i)] => GetResult.found d i
      | _ => GetResult.err ("multiple digests found for " ++ tagStr)

/-- The certificate an entry carries, when every decode step on the path to it
succeeds (projection used to state what acceptance implies). -/
def certOf (fe : Option GetLogEntryResp) : Option Cert :=
  match fe with
  | none => none
  | some gresp =>
    match gresp.payload with
    | [le] =>
      le.body.bind fun rawBody =>
        rawBody.base64.bind fun b64 =>
          b64.json.bind fun spec =>
            spec.pem.bind fun block => block.cert
    | _ => none

/-- The digests of the entries the verifier accepts. -/
def acceptedDigests (ourEmail tagStr : String)
    (entries : List (String × Option GetLogEntryResp)) : List String :=
  entries.filterMap fun p =>
    match processEntry ourEmail tagStr p.1 p.2 with
    | EntryOutcome.accept d _ => some d
    | _ => none

/-- Whether processing an entry hits one of the two hard-error decode steps. -/
def entryErrs (ourEmail tagStr : String) (p : String × Option GetLogEntryResp) : Bool :=
  match processEntry ourEmail tagStr p.1 p.2 with
  | EntryOutcome.err _ => true
  | _ => false

/-- The bytes of `[]byte(s)` for a Go string: its UTF-8 encoding. -/
def strBytes (s : String) : List Nat := s.toUTF8.toList.map UInt8.toNat

/-- One byte rendered by Go `%x`: two lowercase hex digits. -/
def byteHex (b : Fin 256) : String :=
  String.mk [Nat.digitChar (b.val / 16), Nat.digitChar (b.val % 16)]

/-- A byte slice rendered by Go `%x`. -/
def goHexBytes : List (Fin 256) → String
  | [] => ""
  | b :: bs => byteHex b ++ goHexBytes bs

/-- The subject digest field submitted by `rekor.Put`:
`fmt.Sprintf("%x", sha256.Sum256([]byte(tag.String())))`, with `sha256.Sum256`
(a Go stdlib function) supplied as an oracle. -/
def putSubjectSha256 (sum256 : List Nat → List (Fin 256)) (tagStr : String) : String :=
  goHexBytes (sum256 (strBytes tagStr))

/-- The search hash used by `rekor.Get`:
`fmt.Sprintf("%x", sha256.Sum256([]byte(tag.String())))` on the same tag. -/
def getSearchHash (sum256 : List Nat → List (Fin 256)) (tagStr : String) : String :=
  goHexBytes (sum256 (strBytes tagStr))

/-- The spec's words: the lowercase hex encoding of SHA-256 of the tag string. -/
def specLowerHexSHA256 (sum256 : List Nat → List (Fin 256)) (tagStr : String) : String :=
  goHexBytes (sum256 (strBytes tagStr))

end rekor

/-- A parsed `name.Repository`. -/
structure Repo where
  registryStr : String
  repositoryStr : String
  str : String
deriving DecidableEq, Repr

/-- A parsed `name.Tag`; only its `String()` rendering is consumed. -/
structure Tag where
  str : String
deriving DecidableEq, Repr

/-- The upstream HTTP response from `http.DefaultTransport.RoundTrip`. -/
structure UpstreamResp where
  status : Nat
  headers : List (String × String)
  body : String
deriving DecidableEq, Repr

/-- The inbound HTTP request. -/
structure Request where
  method : String
  path : String
  headers : List (String × String)
deriving DecidableEq, Repr

/-- The external world as the proxy observes it: `name.NewRepository` and
`name.NewTag` (`Except` carries the parse error text), `rekor.Get`,
`getToken`'s outcome, the upstream round trip by URL, `rekor.Put`'s outcome,
and `time.Time.Format(time.RFC3339)` on Unix seconds. -/
structure ProxyEnv where
  parseRepo : String → Except String Repo
  parseTag : String → Except String Tag
  rekorGet : Tag → GetResult
  getToken : Repo → Except String String
  roundTrip : String → Except String UpstreamResp
  rekorPut : Tag → String → Except String Info
  rfc3339 : Int → String

/-- `strings.Split` on a one-character separator, over the character list:
splitting the empty text yields one empty field. -/
def goSplitList (sep : Char) : List Char → List (List Char)
  | [] => [[]]
  | c :: rest =>
    if c == sep then [] :: goSplitList sep rest
    else
      match goSplitList sep rest with
      | h :: t => (c :: h) :: t
      | [] => [[c]]

/-- `strings.Split(s, sep)` for a one-character separator. -/
def goSplit (s : String) (sep : Char) : List String :=
  (goSplitList sep s.data).map String.mk

/-- Character-list comparison underlying `strings.HasPrefix`. -/
def listPre : List Char → List Char → Bool
  | [], _ => true
  | _ :: _, [] => false
  | a :: as, b :: bs => a == b && listPre as bs

/-- `strings.HasPrefix(s, pre)`. -/
def goHasPre (s pre : String) : Bool := listPre pre.data s.data

/-- Go slice expression `xs[lo:hi]`: `none` models the out-of-range panic
(Go requires `0 <= lo <= hi <= len(xs)`). -/
def goSlice (xs : List String) (lo hi : Int) : Option (List String) :=
  if 0 ≤ lo ∧ lo ≤ hi ∧ hi ≤ (xs.length : Int) then
    some ((xs.drop lo.toNat).take (hi - lo).toNat)
  else none

/-- `parts[len(parts)-2]`, the path's kind segment. -/
def kindStr (parts : List String) : String := parts.getD (parts.length - 2) ""

/-- `parts[len(parts)-1]`, the path's reference segment. -/
def refStr (parts : List String) : String := parts.getD (parts.length - 1) ""

/-- The classifier: a manifests request whose reference is not digest-shaped. -/
def isManifestTagRequest (parts : List String) : Bool :=
  kindStr parts == "manifests" && !goHasPre (refStr parts) "sha256:"

/-- The upstream URL built by `proxy`. -/
def urlOf (repo : Repo) (parts : List String) : String :=
  "https://" ++ repo.registryStr ++ "/v2/" ++ repo.repositoryStr ++ "/"
    ++ String.intercalate "/" (parts.drop (parts.length - 2))

/-- The `proxy` function of main.go as a function of the environment and the
request; `none` is a Go panic. Mirrors the source's early returns: slice of the
path parts, repository parse, tag parse and Rekor lookup for manifest-by-tag
requests, token acquisition when no Authorization header is present, the
upstream round trip, the digest-consistency check, header copying, the
first-sighting record (whose failure is logged, leaving `info` nil, while
`TLog-First-Seen` is set unconditionally in that branch), the `TLog-*`
provenance headers, and body streaming for every kind but blobs. -/
def proxy (env : ProxyEnv) (r : Request) : Option Response :=
  let parts := goSplit r.path '/'
  match goSlice parts 2 ((parts.length : Int) - 2) with
  | none => none
  | some repoParts =>
    match env.parseRepo (String.intercalate "/" repoParts) with
    | Except.error e =>
      some (serveErrorResp { status := 400, code := "NAME_INVALID",
                             message := "parsing repository name: " ++ e })
    | Except.ok repo =>
      let lookupStage : Except RegError (Option Tag × String × Option Info) :=
        if isManifestTagRequest parts then
          match env.parseTag (repo.str ++ ":" ++ refStr parts) with
          | Except.error e =>
            Except.error { status := 400, code := "NAME_INVALID",
                           message := "parsing tag: " ++ e }
          | Except.ok tag =>
            match env.rekorGet tag with
            | GetResult.err m =>
              Except.error (newRegError
                ("looking up digest for tag " ++ goQuote tag.str ++ ": " ++ m))
            | GetResult.nothing => Except.ok (some tag, "", none)
            | GetResult.found d i => Except.ok (some tag, d, some i)
        else Except.ok (none, "", none)
      match lookupStage with
      | Except.error re => some (serveErrorResp re)
      | Except.ok (tagOpt, wantDigest, info0) =>
        let authStage : Except RegError Unit :=
          if headerGetD r.headers "Authorization" == "" then
            match env.getToken repo with
            | Except.error e =>
              Except.error (newRegError ("getting token: " ++ e))
            | Except.ok _ => Except.ok ()
          else Except.ok ()
        match authStage with
        | Except.error re => some (serveErrorResp re)
        | Except.ok _ =>
          match env.roundTrip (urlOf repo parts) with
          | Except.error e =>
            some (serveErrorResp (newRegError
              ("fetching " ++ goQuote (urlOf repo parts) ++ ": " ++ e)))
          | Except.ok resp =>
            let gotDigest := headerGetD resp.headers "Docker-Content-Digest"
            if wantDigest != "" && gotDigest != wantDigest then
              some (serveErrorResp
                (digestMismatch ((tagOpt.map Tag.str).getD "") gotDigest wantDigest))
            else
              let hdrs0 := resp.headers
              let recordStage : List (String × String) × Option Info :=
                if isManifestTagRequest parts && gotDigest != "" && wantDigest == "" then
                  let inf : Option Info :=
                    match env.rekorPut (tagOpt.getD { str := "" }) gotDigest with
                    | Except.error _ => none
                    | Except.ok i => some i
                  (headerSet hdrs0 "TLog-First-Seen" "true", inf)
                else (hdrs0, info0)
              let hdrs1 := recordStage.1
              let hdrs2 :=
                match recordStage.2 with
                | some i =>
                  headerSet (headerSet (headerSet hdrs1 "TLog-UUID" i.uuid)
                    "TLog-LogIndex" (toString i.logIndex))
                    "TLog-IntegratedTime" (env.rfc3339 i.integratedTime)
                | none => hdrs1
              some { status := resp.status
                     headers := hdrs2
                     body := if kindStr parts != "blobs" then Body.upstream resp.body
                             else Body.empty }

/-- The `/v2/` handler of main.go: method guard, version banner on the API
root, otherwise `proxy`. -/
def handler (env : ProxyEnv) (r : Request) : Option Response :=
  if r.method != "GET" && r.method != "HEAD" then
    some (serveErrorResp { status := 405, code := "DENIED", message := "tlogistry is read-only" })
  else if r.path == "/v2/" || r.path == "/v2" then
    some { status := 200
           headers := [("Docker-Distribution-API-Version", "registry/2.0")]
           body := Body.empty }
  else proxy env r

/-! ## Helper lemmas -/

theorem headerGetD_set_self (k v : String) :
    ∀ hs, headerGetD (headerSet hs k v) k = v := by
  intro hs
  induction hs with
  | nil => simp [headerSet, headerGetD]
  | cons p rest ih =>
    simp only [headerSet] at ih ⊢
    by_cases hp : p.1 = k
    · simpa [List.filter_cons, hp] using ih
    · simpa [List.filter_cons, headerGetD, hp] using ih

theorem headerGetD_set_ne (k v k2 : String) (h : k ≠ k2) :
    ∀ hs, headerGetD (headerSet hs k v) k2 = headerGetD hs k2 := by
  have hkk2 : (k == k2) = false := beq_eq_false_iff_ne.mpr h
  intro hs
  induction hs with
  | nil => simp [headerSet, headerGetD, hkk2]
  | cons p rest ih =>
    simp only [headerSet] at ih ⊢
    by_cases hp : p.1 = k
    · have hp2 : p.1 ≠ k2 := hp ▸ h
      simpa [List.filter_cons, headerGetD, hp, hp2, h] using ih
    · by_cases hq : p.1 = k2
      · simp [List.filter_cons, headerGetD, hp, hq, Ne.symm h]
      · simpa [List.filter_cons, headerGetD, hp, hq] using ih

/-- An inert environment for concrete instantiations. -/
def trivEnv : ProxyEnv :=
  { parseRepo := fun _ => Except.error "unused"
    parseTag := fun _ => Except.error "unused"
    rekorGet := fun _ => GetResult.nothing
    getToken := fun _ => Except.error "unused"
    roundTrip := fun _ => Except.error "unused"
    rekorPut := fun _ _ => Except.error "unused"
    rfc3339 := fun _ => "" }

/-! ## Claims -/

/-- C10: for every GET or HEAD request whose path begins with `/v2/` but is
neither `/v2` nor `/v2/` and splits into fewer than four slash-separated parts,
the slice expression `parts[2:len(parts)-2]` in `proxy` is out of bounds, so the
handler panics (modelled as `none`) instead of producing any response — in
particular no NAME_INVALID registry error. -/
theorem C10_short_path_panics (env : ProxyEnv) (r : Request)
    (hm : r.method = "GET" ∨ r.method = "HEAD")
    (hv2 : goHasPre r.path "/v2/")
    (h1 : r.path ≠ "/v2") (h2 : r.path ≠ "/v2/")
    (hlen : (goSplit r.path '/').length < 4) :
    handler env r = none := by
  have hm2 : (r.method != "GET" && r.method != "HEAD") = false := by
    rcases hm with h | h <;> simp [h]
  have hp2 : (r.path == "/v2/" || r.path == "/v2") = false := by
    simp [h1, h2]
  have hgs : goSlice (goSplit r.path '/') 2 (((goSplit r.path '/').length : Int) - 2) = none := by
    unfold goSlice
    rw [if_neg]
    rintro ⟨-, hle, -⟩
    omega
  simp only [handler, hm2, hp2, Bool.false_eq_true, if_false, proxy, hgs]

/-- Witness for C10 at the concrete request `GET /v2/foo`. -/
theorem C10_short_path_panics_witness :
    handler trivEnv { method := "GET", path := "/v2/foo", headers := [] } = none :=
  C10_short_path_panics trivEnv _ (Or.inl rfl) (by decide) (by decide) (by decide) (by decide)

/-- C9: for every proxied request whose kind segment is `blobs`, the handler
forwards the upstream status code and all upstream response headers but never
copies the upstream body; for any other kind the body is streamed. The third
conjunct is fully general: no response the proxy ever produces carries an
upstream body when the kind segment is `blobs`. -/
theorem C9_blobs_body_not_copied (env : ProxyEnv) (r : Request)
    (repoParts : List String) (repo : Repo) (uresp : UpstreamResp)
    (hslice : goSlice (goSplit r.path '/') 2 (((goSplit r.path '/').length : Int) - 2) =
      some repoParts)
    (hrepo : env.parseRepo (String.intercalate "/" repoParts) = Except.ok repo)
    (hauth : headerGetD r.headers "Authorization" ≠ "")
    (hrt : env.roundTrip (urlOf repo (goSplit r.path '/')) = Except.ok uresp) :
    (kindStr (goSplit r.path '/') = "blobs" →
      proxy env r = some { status := uresp.status, headers := uresp.headers,
                           body := Body.empty }) ∧
    (kindStr (goSplit r.path '/') ≠ "blobs" → isManifestTagRequest (goSplit r.path '/') = false →
      proxy env r = some { status := uresp.status, headers := uresp.headers,
                           body := Body.upstream uresp.body }) ∧
    (∀ (env2 : ProxyEnv) (r2 : Request) (resp : Response) (b : String),
      proxy env2 r2 = some resp → resp.body = Body.upstream b →
      kindStr (goSplit r2.path '/') ≠ "blobs") := by
  refine ⟨?_, ?_, ?_⟩
  · intro hk
    have himt : isManifestTagRequest (goSplit r.path '/') = false := by
      simp [isManifestTagRequest, hk]
    simp [proxy, hslice, hrepo, himt, hauth, hrt, hk]
  · intro hk himt
    simp [proxy, hslice, hrepo, himt, hauth, hrt, hk]
  · intro env2 r2 resp b hp hb
    by_contra hk
    simp only [proxy] at hp
    repeat' split at hp
    all_goals
      first
      | exact Option.noConfusion hp
      | (injection hp with hr; rw [← hr] at hb; simp_all [serveErrorResp])

/-- C1: on a manifest-by-tag request where the log lookup returned a non-empty
digest `d` and the upstream's `Docker-Content-Digest` value `g` differs from
`d`, the handler responds with the `digestMismatch` registry error — HTTP 400,
code TAG_INVALID, message citing both digests — and the upstream body is not
forwarded. -/
theorem C1_mismatch_rejected (env : ProxyEnv) (r : Request)
    (repoParts : List String) (repo : Repo) (tag : Tag) (d g : String) (i : Info)
    (uresp : UpstreamResp)
    (hslice : goSlice (goSplit r.path '/') 2 (((goSplit r.path '/').length : Int) - 2) =
      some repoParts)
    (hrepo : env.parseRepo (String.intercalate "/" repoParts) = Except.ok repo)
    (himt : isManifestTagRequest (goSplit r.path '/') = true)
    (htag : env.parseTag (repo.str ++ ":" ++ refStr (goSplit r.path '/')) = Except.ok tag)
    (hlook : env.rekorGet tag = GetResult.found d i)
    (hauth : headerGetD r.headers "Authorization" ≠ "")
    (hrt : env.roundTrip (urlOf repo (goSplit r.path '/')) = Except.ok uresp)
    (hg : headerGetD uresp.headers "Docker-Content-Digest" = g)
    (hd : d ≠ "") (hne : g ≠ d) :
    proxy env r = some (serveErrorResp (digestMismatch tag.str g d)) ∧
    (digestMismatch tag.str g d).status = 400 ∧
    (digestMismatch tag.str g d).code = "TAG_INVALID" ∧
    (∃ x y z, (digestMismatch tag.str g d).message = x ++ g ++ y ++ d ++ z) ∧
    (∀ b, (serveErrorResp (digestMismatch tag.str g d)).body ≠ Body.upstream b) := by
  refine ⟨?_, rfl, rfl, ?_, ?_⟩
  · simp [proxy, hslice, hrepo, himt, htag, hlook, hauth, hrt, hg, bne_iff_ne, hd, hne]
  · refine ⟨"tag " ++ "\"" ++ tag.str ++ "\"" ++ " mismatch; got " ++ "\"",
      "\"" ++ ", want " ++ "\"", "\"", ?_⟩
    apply String.ext
    simp [digestMismatch, goQuote, String.data_append, List.append_assoc]
  · intro b
    simp [serveErrorResp]

/-- Stock concrete objects for witnesses. -/
def repoUbuntu : Repo :=
  { registryStr := "index.docker.io", repositoryStr := "library/ubuntu", str := "ubuntu" }

def tagLatest : Tag := { str := "ubuntu:latest" }

def infoA : Info := { uuid := "uuid-1", logIndex := 7, integratedTime := 99 }

def reqManifest : Request :=
  { method := "GET", path := "/v2/ubuntu/manifests/latest"
    headers := [("Authorization", "Bearer x")] }

def envC1 : ProxyEnv :=
  { parseRepo := fun _ => Except.ok repoUbuntu
    parseTag := fun _ => Except.ok tagLatest
    rekorGet := fun _ => GetResult.found "sha256:AAA" infoA
    getToken := fun _ => Except.ok ""
    roundTrip := fun _ => Except.ok
      { status := 200, headers := [("Docker-Content-Digest", "sha256:BBB")], body := "MANIFEST" }
    rekorPut := fun _ _ => Except.error "unused"
    rfc3339 := fun t => toString t }

/-- Witness for C1: upstream digest `sha256:BBB` against recorded `sha256:AAA`. -/
theorem C1_mismatch_rejected_witness :
    proxy envC1 reqManifest =
      some (serveErrorResp (digestMismatch "ubuntu:latest" "sha256:BBB" "sha256:AAA")) ∧
    (digestMismatch "ubuntu:latest" "sha256:BBB" "sha256:AAA").status = 400 ∧
    (digestMismatch "ubuntu:latest" "sha256:BBB" "sha256:AAA").code = "TAG_INVALID" ∧
    (∃ x y z, (digestMismatch "ubuntu:latest" "sha256:BBB" "sha256:AAA").message =
      x ++ "sha256:BBB" ++ y ++ "sha256:AAA" ++ z) ∧
    (∀ b, (serveErrorResp (digestMismatch "ubuntu:latest" "sha256:BBB" "sha256:AAA")).body ≠
      Body.upstream b) :=
  C1_mismatch_rejected envC1 reqManifest ["ubuntu"] repoUbuntu tagLatest
    "sha256:AAA" "sha256:BBB" infoA
    { status := 200, headers := [("Docker-Content-Digest", "sha256:BBB")], body := "MANIFEST" }
    (by decide) rfl (by decide) rfl rfl (by decide) rfl (by decide) (by decide) (by decide)

/-- C7: on a manifest-by-tag request where the lookup returned digest `d` with
provenance `i` and the upstream digest equals `d`, the handler serves the
upstream response, does not call `rekor.Put` (the response is independent of
the put oracle), sets the `TLog-UUID`, `TLog-LogIndex` and `TLog-IntegratedTime`
headers from `i`, and leaves `TLog-First-Seen` exactly as the upstream sent it
(in particular unset when the upstream did not send it). -/
theorem C7_second_sighting_serves (env : ProxyEnv) (r : Request)
    (repoParts : List String) (repo : Repo) (tag : Tag) (d : String) (i : Info)
    (uresp : UpstreamResp)
    (hslice : goSlice (goSplit r.path '/') 2 (((goSplit r.path '/').length : Int) - 2) =
      some repoParts)
    (hrepo : env.parseRepo (String.intercalate "/" repoParts) = Except.ok repo)
    (himt : isManifestTagRequest (goSplit r.path '/') = true)
    (htag : env.parseTag (repo.str ++ ":" ++ refStr (goSplit r.path '/')) = Except.ok tag)
    (hlook : env.rekorGet tag = GetResult.found d i)
    (hauth : headerGetD r.headers "Authorization" ≠ "")
    (hrt : env.roundTrip (urlOf repo (goSplit r.path '/')) = Except.ok uresp)
    (hg : headerGetD uresp.headers "Docker-Content-Digest" = d)
    (hd : d ≠ "") :
    proxy env r = some
      { status := uresp.status
        headers := headerSet (headerSet (headerSet uresp.headers "TLog-UUID" i.uuid)
          "TLog-LogIndex" (toString i.logIndex))
          "TLog-IntegratedTime" (env.rfc3339 i.integratedTime)
        body := Body.upstream uresp.body } ∧
    (∀ pf, proxy { env with rekorPut := pf } r = proxy env r) ∧
    headerGetD (headerSet (headerSet (headerSet uresp.headers "TLog-UUID" i.uuid)
      "TLog-LogIndex" (toString i.logIndex))
      "TLog-IntegratedTime" (env.rfc3339 i.integratedTime)) "TLog-UUID" = i.uuid ∧
    headerGetD (headerSet (headerSet (headerSet uresp.headers "TLog-UUID" i.uuid)
      "TLog-LogIndex" (toString i.logIndex))
      "TLog-IntegratedTime" (env.rfc3339 i.integratedTime)) "TLog-LogIndex" =
        toString i.logIndex ∧
    headerGetD (headerSet (headerSet (headerSet uresp.headers "TLog-UUID" i.uuid)
      "TLog-LogIndex" (toString i.logIndex))
      "TLog-IntegratedTime" (env.rfc3339 i.integratedTime)) "TLog-IntegratedTime" =
        env.rfc3339 i.integratedTime ∧
    headerGetD (headerSet (headerSet (headerSet uresp.headers "TLog-UUID" i.uuid)
      "TLog-LogIndex" (toString i.logIndex))
      "TLog-IntegratedTime" (env.rfc3339 i.integratedTime)) "TLog-First-Seen" =
        headerGetD uresp.headers "TLog-First-Seen" := by
  have hkind : kindStr (goSplit r.path '/') = "manifests" := by
    simp only [isManifestTagRequest, Bool.and_eq_true, beq_iff_eq] at himt
    exact himt.1
  refine ⟨?_, ?_, ?_, ?_, ?_, ?_⟩
  · simp [proxy, hslice, hrepo, himt, htag, hlook, hauth, hrt, hg, hkind,
      bne_self_eq_false, Bool.and_false, beq_iff_eq, hd]
  · intro pf
    simp [proxy, hslice, hrepo, himt, htag, hlook, hauth, hrt, hg, hkind,
      bne_self_eq_false, Bool.and_false, beq_iff_eq, hd]
  · rw [headerGetD_set_ne _ _ _ (by decide), headerGetD_set_ne _ _ _ (by decide),
      headerGetD_set_self]
  · rw [headerGetD_set_ne _ _ _ (by decide), headerGetD_set_self]
  · rw [headerGetD_set_self]
  · rw [headerGetD_set_ne _ _ _ (by decide), headerGetD_set_ne _ _ _ (by decide),
      headerGetD_set_ne _ _ _ (by decide)]

def urespAAA : UpstreamResp :=
  { status := 200, headers := [("Docker-Content-Digest", "sha256:AAA")], body := "MANIFEST" }

def envC7 : ProxyEnv :=
  { parseRepo := fun _ => Except.ok repoUbuntu
    parseTag := fun _ => Except.ok tagLatest
    rekorGet := fun _ => GetResult.found "sha256:AAA" infoA
    getToken := fun _ => Except.ok ""
    roundTrip := fun _ => Except.ok urespAAA
    rekorPut := fun _ _ => Except.error "unused"
    rfc3339 := fun t => toString t }

/-- Witness for C7 at a concrete second-sighting request. -/
theorem C7_second_sighting_serves_witness :
    proxy envC7 reqManifest = some
      { status := urespAAA.status
        headers := headerSet (headerSet (headerSet urespAAA.headers "TLog-UUID" infoA.uuid)
          "TLog-LogIndex" (toString infoA.logIndex))
          "TLog-IntegratedTime" (envC7.rfc3339 infoA.integratedTime)
        body := Body.upstream urespAAA.body } :=
  (C7_second_sighting_serves envC7 reqManifest ["ubuntu"] repoUbuntu tagLatest
    "sha256:AAA" infoA urespAAA
    (by decide) rfl (by decide) rfl rfl (by decide) rfl (by decide) (by decide)).1

def urespBBB : UpstreamResp :=
  { status := 200, headers := [("Docker-Content-Digest", "sha256:BBB")], body := "MANIFEST" }

def envC4 : ProxyEnv :=
  { parseRepo := fun _ => Except.ok repoUbuntu
    parseTag := fun _ => Except.ok tagLatest
    rekorGet := fun _ => GetResult.nothing
    getToken := fun _ => Except.ok ""
    roundTrip := fun _ => Except.ok urespBBB
    rekorPut := fun _ _ => Except.error "putfail"
    rfc3339 := fun t => toString t }

/-- Counterexample to C4 as stated: on a first-sighting request whose
`rekor.Put` call fails, the handler still sets `TLog-First-Seen: true`
(the `Header().Set` is unconditional inside the recording branch). -/
theorem C4_counterexample_first_seen_on_failure :
    envC4.rekorPut tagLatest "sha256:BBB" = Except.error "putfail" ∧
    proxy envC4 reqManifest = some
      { status := 200
        headers := headerSet urespBBB.headers "TLog-First-Seen" "true"
        body := Body.upstream "MANIFEST" } ∧
    headerGetD (headerSet urespBBB.headers "TLog-First-Seen" "true") "TLog-First-Seen" =
      "true" := by
  refine ⟨rfl, ?_, by decide⟩
  decide

/-- C4 as amended: on every first-sighting manifest-by-tag request (lookup
found nothing, upstream digest non-empty) the handler sets
`TLog-First-Seen: true` whether or not the `rekor.Put` call succeeds. When
recording fails the response is still served with the upstream status and body
and no `TLog-UUID` provenance header is added; when it succeeds the provenance
headers come from the newly created entry. -/
theorem C4_first_seen_regardless (env : ProxyEnv) (r : Request)
    (repoParts : List String) (repo : Repo) (tag : Tag) (g : String)
    (uresp : UpstreamResp)
    (hslice : goSlice (goSplit r.path '/') 2 (((goSplit r.path '/').length : Int) - 2) =
      some repoParts)
    (hrepo : env.parseRepo (String.intercalate "/" repoParts) = Except.ok repo)
    (himt : isManifestTagRequest (goSplit r.path '/') = true)
    (htag : env.parseTag (repo.str ++ ":" ++ refStr (goSplit r.path '/')) = Except.ok tag)
    (hlook : env.rekorGet tag = GetResult.nothing)
    (hauth : headerGetD r.headers "Authorization" ≠ "")
    (hrt : env.roundTrip (urlOf repo (goSplit r.path '/')) = Except.ok uresp)
    (hg : headerGetD uresp.headers "Docker-Content-Digest" = g)
    (hgne : g ≠ "") :
    (∀ e, env.rekorPut tag g = Except.error e →
      proxy env r = some
        { status := uresp.status
          headers := headerSet uresp.headers "TLog-First-Seen" "true"
          body := Body.upstream uresp.body } ∧
      headerGetD (headerSet uresp.headers "TLog-First-Seen" "true") "TLog-First-Seen" =
        "true" ∧
      headerGetD (headerSet uresp.headers "TLog-First-Seen" "true") "TLog-UUID" =
        headerGetD uresp.headers "TLog-UUID") ∧
    (∀ i, env.rekorPut tag g = Except.ok i →
      proxy env r = some
        { status := uresp.status
          headers := headerSet (headerSet (headerSet
            (headerSet uresp.headers "TLog-First-Seen" "true") "TLog-UUID" i.uuid)
            "TLog-LogIndex" (toString i.logIndex))
            "TLog-IntegratedTime" (env.rfc3339 i.integratedTime)
          body := Body.upstream uresp.body }) := by
  have hkind : kindStr (goSplit r.path '/') = "manifests" := by
    simp only [isManifestTagRequest, Bool.and_eq_true, beq_iff_eq] at himt
    exact himt.1
  constructor
  · intro e hput
    refine ⟨?_, by rw [headerGetD_set_self], by rw [headerGetD_set_ne _ _ _ (by decide)]⟩
    simp [proxy, hslice, hrepo, himt, htag, hlook, hauth, hrt, hg, hput, hkind,
      bne_iff_ne, hgne]
  · intro i hput
    simp [proxy, hslice, hrepo, himt, htag, hlook, hauth, hrt, hg, hput, hkind,
      bne_iff_ne, hgne]

/-- Witness for the amended C4 at a concrete failing-put environment. -/
theorem C4_first_seen_regardless_witness :
    proxy envC4 reqManifest = some
      { status := urespBBB.status
        headers := headerSet urespBBB.headers "TLog-First-Seen" "true"
        body := Body.upstream urespBBB.body } :=
  ((C4_first_seen_regardless envC4 reqManifest ["ubuntu"] repoUbuntu tagLatest
    "sha256:BBB" urespBBB
    (by decide) rfl (by decide) rfl rfl (by decide) rfl (by decide) (by decide)).1
    "putfail" rfl).1

def urespNoDigest : UpstreamResp := { status := 200, headers := [], body := "MANIFEST" }

def envC6 : ProxyEnv :=
  { parseRepo := fun _ => Except.ok repoUbuntu
    parseTag := fun _ => Except.ok tagLatest
    rekorGet := fun _ => GetResult.found "sha256:AAA" infoA
    getToken := fun _ => Except.ok ""
    roundTrip := fun _ => Except.ok urespNoDigest
    rekorPut := fun _ _ => Except.error "unused"
    rfc3339 := fun t => toString t }

/-- Counterexample to C6 as stated: when the upstream omits
`Docker-Content-Digest` but the log already holds a binding for the tag, the
proxy does NOT pass the response through — the empty digest trips the
consistency check and the request is rejected with TAG_INVALID. -/
theorem C6_counterexample_rejects_with_binding :
    headerGetD urespNoDigest.headers "Docker-Content-Digest" = "" ∧
    envC6.rekorGet tagLatest = GetResult.found "sha256:AAA" infoA ∧
    proxy envC6 reqManifest =
      some (serveErrorResp (digestMismatch "ubuntu:latest" "" "sha256:AAA")) := by
  refine ⟨rfl, rfl, ?_⟩
  decide

/-- C6 as amended: when the upstream omits `Docker-Content-Digest` on a
manifest-by-tag request, the proxy records nothing; if the log holds no binding
it passes the response through unmodified, but if the log does hold a non-empty
binding the empty upstream digest is treated as a mismatch and rejected with
the TAG_INVALID registry error. -/
theorem C6_empty_digest_behavior (env : ProxyEnv) (r : Request)
    (repoParts : List String) (repo : Repo) (tag : Tag)
    (uresp : UpstreamResp)
    (hslice : goSlice (goSplit r.path '/') 2 (((goSplit r.path '/').length : Int) - 2) =
      some repoParts)
    (hrepo : env.parseRepo (String.intercalate "/" repoParts) = Except.ok repo)
    (himt : isManifestTagRequest (goSplit r.path '/') = true)
    (htag : env.parseTag (repo.str ++ ":" ++ refStr (goSplit r.path '/')) = Except.ok tag)
    (hauth : headerGetD r.headers "Authorization" ≠ "")
    (hrt : env.roundTrip (urlOf repo (goSplit r.path '/')) = Except.ok uresp)
    (hg : headerGetD uresp.headers "Docker-Content-Digest" = "") :
    (env.rekorGet tag = GetResult.nothing →
      proxy env r = some
        { status := uresp.status, headers := uresp.headers
          body := Body.upstream uresp.body } ∧
      (∀ pf, proxy { env with rekorPut := pf } r = proxy env r)) ∧
    (∀ d i, env.rekorGet tag = GetResult.found d i → d ≠ "" →
      proxy env r = some (serveErrorResp (digestMismatch tag.str "" d))) := by
  have hkind : kindStr (goSplit r.path '/') = "manifests" := by
    simp only [isManifestTagRequest, Bool.and_eq_true, beq_iff_eq] at himt
    exact himt.1
  constructor
  · intro hlook
    constructor
    · simp [proxy, hslice, hrepo, himt, htag, hlook, hauth, hrt, hg, hkind]
    · intro pf
      simp [proxy, hslice, hrepo, himt, htag, hlook, hauth, hrt, hg, hkind]
  · intro d i hlook hd
    simp [proxy, hslice, hrepo, himt, htag, hlook, hauth, hrt, hg, hkind,
      bne_iff_ne, hd, Ne.symm hd]

def envC6pass : ProxyEnv := { envC6 with rekorGet := fun _ => GetResult.nothing }

/-- Witness for the amended C6: with no binding in the log, a digest-less
upstream response passes through untouched. -/
theorem C6_empty_digest_behavior_witness :
    proxy envC6pass reqManifest = some
      { status := urespNoDigest.status, headers := urespNoDigest.headers
        body := Body.upstream urespNoDigest.body } :=
  ((C6_empty_digest_behavior envC6pass reqManifest ["ubuntu"] repoUbuntu tagLatest
    urespNoDigest (by decide) rfl (by decide) rfl (by decide) rfl rfl).1 rfl).1

/-- C2: the entry verifier accepts an entry only if its certificate chain
validates (Fulcio roots/intermediates, CodeSigning key usage) with the
verification clock set to the certificate's own NotBefore; consequently an
entry whose certificate has expired relative to any wall-clock `now`
(`notAfter < now`) is still accepted provided every other precondition holds. -/
theorem C2_clock_pinned_to_notBefore :
    (∀ (ourEmail tagStr u : String) (fe : Option rekor.GetLogEntryResp)
       (d : String) (i : Info),
      rekor.processEntry ourEmail tagStr u fe = rekor.EntryOutcome.accept d i →
      ∃ c, rekor.certOf fe = some c ∧ rekor.certVerify c.notBefore c = true) ∧
    (∀ (now : Int) (ourEmail tagStr u : String) (le : rekor.LogEntryAnon)
       (rawBody : rekor.RawBody) (att : rekor.AttDoc) (b64 : rekor.Base64Body)
       (spec : rekor.SpecPK) (block : rekor.PemBlock) (cert : rekor.Cert),
      le.body = some rawBody → le.attestation = some att →
      att.predicateType = "tlogistry-fetched" → att.tag = tagStr →
      rawBody.base64 = some b64 → b64.json = some spec →
      spec.publicKey ≠ [] → spec.pem = some block → block.cert = some cert →
      cert.chainsToFulcioCodeSigning = true → cert.notBefore ≤ cert.notAfter →
      cert.emailAddresses = [ourEmail] →
      cert.notAfter < now →
      rekor.processEntry ourEmail tagStr u (some { payload := [le] }) =
        rekor.EntryOutcome.accept att.digest
          { uuid := u, logIndex := le.logIndex, integratedTime := le.integratedTime }) := by
  constructor
  · intro ourEmail tagStr u fe d i hacc
    unfold rekor.processEntry at hacc
    repeat' split at hacc
    all_goals simp_all [rekor.certOf]
  · intro now ourEmail tagStr u le rawBody att b64 spec block cert
    intro hbody hatt hpt htg hb64 hjson hpk hpem hcert hchain hwin hemail hexp
    have hlen : spec.publicKey.length ≠ 0 := by
      simpa [List.length_eq_zero] using hpk
    have hver : rekor.certVerify cert.notBefore cert = true := by
      simp [rekor.certVerify, hchain, hwin]
    simp [rekor.processEntry, hbody, hatt, hpt, htg, hb64, hjson, hlen, hpem, hcert,
      hver, hemail]

def certC2 : rekor.Cert :=
  { notBefore := 10, notAfter := 50, chainsToFulcioCodeSigning := true
    emailAddresses := ["svc@example.iam.gserviceaccount.com"] }

def blockC2 : rekor.PemBlock := { cert := some certC2 }

def specC2 : rekor.SpecPK := { publicKey := [48, 130], pem := some blockC2 }

def b64C2 : rekor.Base64Body := { json := some specC2 }

def rawC2 : rekor.RawBody := { base64 := some b64C2 }

def attC2 : rekor.AttDoc :=
  { predicateType := "tlogistry-fetched", digest := "sha256:AAA", tag := "ubuntu:latest" }

def leC2 : rekor.LogEntryAnon :=
  { body := some rawC2, attestation := some attC2, logIndex := 7, integratedTime := 40 }

def feC2 : Option rekor.GetLogEntryResp := some { payload := [leC2] }

/-- Witness for C2: a certificate long expired relative to `now = 1000` is
accepted, and acceptance indeed implies chain validity at NotBefore. -/
theorem C2_clock_pinned_to_notBefore_witness :
    rekor.processEntry "svc@example.iam.gserviceaccount.com" "ubuntu:latest" "uuid-9" feC2 =
      rekor.EntryOutcome.accept "sha256:AAA"
        { uuid := "uuid-9", logIndex := 7, integratedTime := 40 } ∧
    (∃ c, rekor.certOf feC2 = some c ∧ rekor.certVerify c.notBefore c = true) := by
  have hacc := C2_clock_pinned_to_notBefore.2 1000
    "svc@example.iam.gserviceaccount.com" "ubuntu:latest" "uuid-9"
    leC2 rawC2 attC2 b64C2 specC2 blockC2 certC2
    rfl rfl rfl rfl rfl rfl (by decide) rfl rfl rfl (by decide) rfl (by decide)
  exact ⟨hacc, C2_clock_pinned_to_notBefore.1 _ _ _ _ _ _ hacc⟩

theorem runEntries_insert_skip (ourEmail tagStr u : String)
    (fe : Option rekor.GetLogEntryResp)
    (h : rekor.processEntry ourEmail tagStr u fe = rekor.EntryOutcome.skip) :
    ∀ (pre : List (String × Option rekor.GetLogEntryResp)) (acc : List (String × Info))
      (post : List (String × Option rekor.GetLogEntryResp)),
      rekor.runEntries ourEmail tagStr acc (pre ++ (u, fe) :: post) =
        rekor.runEntries ourEmail tagStr acc (pre ++ post) := by
  intro pre
  induction pre with
  | nil =>
    intro acc post
    simp [rekor.runEntries, h]
  | cons p pre ih =>
    intro acc post
    obtain ⟨pu, pfe⟩ := p
    cases hp : rekor.processEntry ourEmail tagStr pu pfe <;>
      simp [rekor.runEntries, hp, ih]

theorem runEntries_hits_err (ourEmail tagStr u : String)
    (fe : Option rekor.GetLogEntryResp) (m : String)
    (h : rekor.processEntry ourEmail tagStr u fe = rekor.EntryOutcome.err m) :
    ∀ (pre : List (String × Option rekor.GetLogEntryResp)),
      (∀ p ∈ pre, rekor.entryErrs ourEmail tagStr p = false) →
      ∀ (acc : List (String × Info)) (post : List (String × Option rekor.GetLogEntryResp)),
      rekor.runEntries ourEmail tagStr acc (pre ++ (u, fe) :: post) = Except.error m := by
  intro pre
  induction pre with
  | nil =>
    intro _ acc post
    simp [rekor.runEntries, h]
  | cons p pre ih =>
    intro hok acc post
    obtain ⟨pu, pfe⟩ := p
    have hnoterr : rekor.entryErrs ourEmail tagStr (pu, pfe) = false :=
      hok _ (List.mem_cons_self _ _)
    have hrest : ∀ p ∈ pre, rekor.entryErrs ourEmail tagStr p = false :=
      fun q hq => hok q (List.mem_cons_of_mem _ hq)
    cases hp : rekor.processEntry ourEmail tagStr pu pfe with
    | skip => simp [rekor.runEntries, hp, ih hrest]
    | accept d i => simp [rekor.runEntries, hp, ih hrest]
    | err m2 => simp [rekor.entryErrs, hp] at hnoterr

/-- An entry whose attestation is well-formed for the tag but whose body fails
base64 decoding. -/
def leBadBody : rekor.LogEntryAnon :=
  { body := some { base64 := none }, attestation := some attC2
    logIndex := 3, integratedTime := 20 }

def feBadBody : Option rekor.GetLogEntryResp := some { payload := [leBadBody] }

/-- Counterexample to C5 as stated: an entry whose body fails to base64-decode
does not merely get skipped — `rekor.Get` returns an error, and the valid entry
after it is never used. -/
theorem C5_counterexample_body_decode_errs :
    rekor.processEntry "svc@example.iam.gserviceaccount.com" "ubuntu:latest" "u1" feBadBody =
      rekor.EntryOutcome.err "decoding Rekor LogEntry body" ∧
    rekor.processEntry "svc@example.iam.gserviceaccount.com" "ubuntu:latest" "u2" feC2 =
      rekor.EntryOutcome.accept "sha256:AAA"
        { uuid := "u2", logIndex := 7, integratedTime := 40 } ∧
    rekor.Get "svc@example.iam.gserviceaccount.com" "ubuntu:latest"
      [("u1", feBadBody), ("u2", feC2)] =
      GetResult.err "decoding Rekor LogEntry body" := by
  refine ⟨by decide, by decide, by decide⟩

/-- C5 as amended: a precondition failure that the loop skips (every failure
except a body base64/JSON decode failure) leaves the result of `rekor.Get`
completely unchanged — it causes no error and the remaining entries are still
examined exactly as if the skipped entry were absent. A body-decode failure, in
contrast, aborts the lookup with that entry's error (provided the entries
before it did not themselves abort). -/
theorem C5_skip_leaves_lookup_unchanged (ourEmail tagStr u : String)
    (fe : Option rekor.GetLogEntryResp)
    (pre post : List (String × Option rekor.GetLogEntryResp)) :
    (rekor.processEntry ourEmail tagStr u fe = rekor.EntryOutcome.skip →
      rekor.Get ourEmail tagStr (pre ++ (u, fe) :: post) =
        rekor.Get ourEmail tagStr (pre ++ post)) ∧
    (∀ m, rekor.processEntry ourEmail tagStr u fe = rekor.EntryOutcome.err m →
      (∀ p ∈ pre, rekor.entryErrs ourEmail tagStr p = false) →
      rekor.Get ourEmail tagStr (pre ++ (u, fe) :: post) = GetResult.err m) := by
  constructor
  · intro h
    cases hpp : pre ++ post with
    | nil =>
      obtain ⟨hpre, hpost⟩ := List.append_eq_nil.mp hpp
      subst hpre; subst hpost
      simp [rekor.Get, rekor.runEntries, h]
    | cons q rest =>
      have h1 : (pre ++ (u, fe) :: post).isEmpty = false := by simp
      simp only [rekor.Get, h1, hpp, List.isEmpty_cons, Bool.false_eq_true, if_false]
      rw [runEntries_insert_skip ourEmail tagStr u fe h pre [] post, hpp]
  · intro m h hok
    have h1 : (pre ++ (u, fe) :: post).isEmpty = false := by simp
    simp only [rekor.Get, h1, Bool.false_eq_true, if_false]
    rw [runEntries_hits_err ourEmail tagStr u fe m h pre hok [] post]

/-- An entry with a foreign predicate type: skipped by the verifier. -/
def leWrongType : rekor.LogEntryAnon :=
  { body := some rawC2
    attestation := some { predicateType := "cosign-signature", digest := "sha256:ZZZ"
                          tag := "ubuntu:latest" }
    logIndex := 4, integratedTime := 30 }

def feWrongType : Option rekor.GetLogEntryResp := some { payload := [leWrongType] }

/-- Witness for the amended C5: a skipped (wrong-predicate-type) entry leaves
the lookup over the remaining valid entry unchanged. -/
theorem C5_skip_leaves_lookup_unchanged_witness :
    rekor.Get "svc@example.iam.gserviceaccount.com" "ubuntu:latest"
      [("u1", feWrongType), ("u2", feC2)] =
    rekor.Get "svc@example.iam.gserviceaccount.com" "ubuntu:latest" [("u2", feC2)] :=
  (C5_skip_leaves_lookup_unchanged "svc@example.iam.gserviceaccount.com" "ubuntu:latest"
    "u1" feWrongType [] [("u2", feC2)]).1 (by decide)

theorem digitChar_mem_hex (n : Nat) (h : n < 16) :
    Nat.digitChar n ∈ "0123456789abcdef".data := by
  interval_cases n <;> decide

theorem goHexBytes_chars (bs : List (Fin 256)) :
    ∀ c ∈ (rekor.goHexBytes bs).data, c ∈ "0123456789abcdef".data := by
  induction bs with
  | nil => intro c hc; simp [rekor.goHexBytes] at hc
  | cons b rest ih =>
    intro c hc
    simp only [rekor.goHexBytes, String.data_append, List.mem_append] at hc
    rcases hc with hc | hc
    · have hdata : (rekor.byteHex b).data =
          [Nat.digitChar (b.val / 16), Nat.digitChar (b.val % 16)] := rfl
      rw [hdata, List.mem_cons, List.mem_singleton] at hc
      rcases hc with hc | hc
      · exact hc ▸ digitChar_mem_hex _ (Nat.div_lt_of_lt_mul (by omega))
      · exact hc ▸ digitChar_mem_hex _ (Nat.mod_lt _ (by omega))
    · exact ih c hc

/-- C8: for every tag string, the index key submitted when recording
(`rekor.Put`'s attestation subject sha256 field) equals the search hash used
when looking the binding up (`rekor.Get`'s SearchIndex hash), and both equal
the lowercase hex encoding of SHA-256 of the tag string (for the stdlib
`sha256.Sum256` supplied as an oracle); every character of the key is a
lowercase hex digit. -/
theorem C8_index_key_agreement (sum256 : List Nat → List (Fin 256)) (t : String) :
    rekor.putSubjectSha256 sum256 t = rekor.getSearchHash sum256 t ∧
    rekor.putSubjectSha256 sum256 t = rekor.specLowerHexSHA256 sum256 t ∧
    ∀ c ∈ (rekor.putSubjectSha256 sum256 t).data, c ∈ "0123456789abcdef".data := by
  refine ⟨rfl, rfl, ?_⟩
  exact goHexBytes_chars _

/-- Witness for C8 at a concrete hash oracle and tag. -/
theorem C8_index_key_agreement_witness :
    rekor.putSubjectSha256 (fun _ => [(171 : Fin 256)]) "ubuntu:latest" =
      rekor.getSearchHash (fun _ => [(171 : Fin 256)]) "ubuntu:latest" ∧
    rekor.putSubjectSha256 (fun _ => [(171 : Fin 256)]) "ubuntu:latest" = "ab" ∧
    'a' ∈ "0123456789abcdef".data :=
  ⟨(C8_index_key_agreement (fun _ => [(171 : Fin 256)]) "ubuntu:latest").1,
   by decide,
   (C8_index_key_agreement (fun _ => [(171 : Fin 256)]) "ubuntu:latest").2.2 'a' (by decide)⟩

theorem assocSet_keys_toFinset (m : List (String × Info)) (d : String) (i : Info) :
    ((rekor.assocSet m d i).map Prod.fst).toFinset =
      insert d (m.map Prod.fst).toFinset := by
  unfold rekor.assocSet
  by_cases h : m.any (fun p => p.1 == d)
  · rw [if_pos h]
    have hmem : d ∈ (m.map Prod.fst).toFinset := by
      rw [List.any_eq_true] at h
      obtain ⟨p, hp, hpd⟩ := h
      rw [beq_iff_eq] at hpd
      rw [List.mem_toFinset, List.mem_map]
      exact ⟨p, hp, hpd⟩
    have hkeys : (m.map (fun p => if p.1 == d then (d, i) else p)).map Prod.fst =
        m.map Prod.fst := by
      rw [List.map_map]
      apply List.map_congr_left
      intro p _
      by_cases hpd : p.1 = d
      · simp [hpd]
      · simp [hpd]
    rw [hkeys, Finset.insert_eq_self.mpr hmem]
  · rw [if_neg h]
    simp [List.toFinset_append, Finset.insert_eq, Finset.union_comm]

theorem assocSet_keys_nodup (m : List (String × Info)) (d : String) (i : Info)
    (h : (m.map Prod.fst).Nodup) : ((rekor.assocSet m d i).map Prod.fst).Nodup := by
  unfold rekor.assocSet
  by_cases hmem : m.any (fun p => p.1 == d)
  · rw [if_pos hmem]
    have hkeys : (m.map (fun p => if p.1 == d then (d, i) else p)).map Prod.fst =
        m.map Prod.fst := by
      rw [List.map_map]
      apply List.map_congr_left
      intro p _
      by_cases hpd : p.1 = d
      · simp [hpd]
      · simp [hpd]
    rw [hkeys]; exact h
  · rw [if_neg hmem]
    have hd : d ∉ m.map Prod.fst := by
      intro hmm
      apply hmem
      rw [List.mem_map] at hmm
      obtain ⟨p, hp, hpd⟩ := hmm
      rw [List.any_eq_true]
      exact ⟨p, hp, by rw [beq_iff_eq]; exact hpd⟩
    simp [List.nodup_append, h, hd]

theorem mem_assocSet (m : List (String × Info)) (d : String) (i : Info)
    (p : String × Info) (hp : p ∈ rekor.assocSet m d i) : p ∈ m ∨ p = (d, i) := by
  unfold rekor.assocSet at hp
  by_cases h : m.any (fun p => p.1 == d)
  · rw [if_pos h] at hp
    rw [List.mem_map] at hp
    obtain ⟨q, hq, hqe⟩ := hp
    by_cases hqd : q.1 = d
    · right; rw [← hqe]; simp [hqd]
    · left; rw [← hqe]; simpa [hqd] using hq
  · rw [if_neg h] at hp
    rw [List.mem_append, List.mem_singleton] at hp
    exact hp

theorem runEntries_spec (ourEmail tagStr : String) :
    ∀ (entries : List (String × Option rekor.GetLogEntryResp)) (acc : List (String × Info)),
      (∀ p ∈ entries, rekor.entryErrs ourEmail tagStr p = false) →
      ∃ m, rekor.runEntries ourEmail tagStr acc entries = Except.ok m ∧
        (m.map Prod.fst).toFinset =
          (acc.map Prod.fst).toFinset ∪
            (rekor.acceptedDigests ourEmail tagStr entries).toFinset ∧
        ((acc.map Prod.fst).Nodup → (m.map Prod.fst).Nodup) ∧
        (∀ p ∈ m, p ∈ acc ∨ ∃ q ∈ entries,
          rekor.processEntry ourEmail tagStr q.1 q.2 =
            rekor.EntryOutcome.accept p.1 p.2) := by
  intro entries
  induction entries with
  | nil =>
    intro acc _
    refine ⟨acc, rfl, ?_, fun h => h, fun p hp => Or.inl hp⟩
    simp [rekor.acceptedDigests]
  | cons e rest ih =>
    intro acc hok
    obtain ⟨u, fe⟩ := e
    have hfe : rekor.entryErrs ourEmail tagStr (u, fe) = false :=
      hok _ (List.mem_cons_self _ _)
    have hrest : ∀ p ∈ rest, rekor.entryErrs ourEmail tagStr p = false :=
      fun q hq => hok q (List.mem_cons_of_mem _ hq)
    cases hp : rekor.processEntry ourEmail tagStr u fe with
    | skip =>
      obtain ⟨m, hrun, hkeys, hnd, hmem⟩ := ih acc hrest
      refine ⟨m, ?_, ?_, hnd, ?_⟩
      · simp [rekor.runEntries, hp, hrun]
      · rw [hkeys]
        simp [rekor.acceptedDigests, List.filterMap_cons, hp]
      · intro p hpm
        rcases hmem p hpm with h | ⟨q, hq, hacc⟩
        · exact Or.inl h
        · exact Or.inr ⟨q, List.mem_cons_of_mem _ hq, hacc⟩
    | accept d i =>
      obtain ⟨m, hrun, hkeys, hnd, hmem⟩ := ih (rekor.assocSet acc d i) hrest
      refine ⟨m, ?_, ?_, ?_, ?_⟩
      · simp [rekor.runEntries, hp, hrun]
      · rw [hkeys, assocSet_keys_toFinset]
        have haccd : rekor.acceptedDigests ourEmail tagStr ((u, fe) :: rest) =
            d :: rekor.acceptedDigests ourEmail tagStr rest := by
          simp [rekor.acceptedDigests, List.filterMap_cons, hp]
        rw [haccd]
        simp [Finset.insert_union, Finset.union_insert]
      · intro h
        exact hnd (assocSet_keys_nodup _ _ _ h)
      · intro p hpm
        rcases hmem p hpm with h | ⟨q, hq, hacc⟩
        · rcases mem_assocSet _ _ _ _ h with h2 | h2
          · exact Or.inl h2
          · refine Or.inr ⟨(u, fe), List.mem_cons_self _ _, ?_⟩
            rw [h2]
            exact hp
        · exact Or.inr ⟨q, List.mem_cons_of_mem _ hq, hacc⟩
    | err m2 => simp [rekor.entryErrs, hp] at hfe

/-- C3: over any search result whose entries all avoid the hard-error decode
path, the outcome of `rekor.Get` is decided by the cardinality of the set of
distinct accepted digests: two or more yield an error (and the proxy maps any
lookup error to a 500 INTERNAL_ERROR response), exactly one yields that digest
with the provenance record of an accepted entry, and none yields no digest, no
provenance and no error. -/
theorem C3_conflict_cardinality (ourEmail tagStr : String)
    (entries : List (String × Option rekor.GetLogEntryResp))
    (hok : ∀ p ∈ entries, rekor.entryErrs ourEmail tagStr p = false) :
    (2 ≤ (rekor.acceptedDigests ourEmail tagStr entries).toFinset.card →
      rekor.Get ourEmail tagStr entries =
        GetResult.err ("multiple digests found for " ++ tagStr)) ∧
    (∀ d, (rekor.acceptedDigests ourEmail tagStr entries).toFinset = {d} →
      ∃ i, rekor.Get ourEmail tagStr entries = GetResult.found d i ∧
        ∃ q ∈ entries, rekor.processEntry ourEmail tagStr q.1 q.2 =
          rekor.EntryOutcome.accept d i) ∧
    (rekor.acceptedDigests ourEmail tagStr entries = [] →
      rekor.Get ourEmail tagStr entries = GetResult.nothing) ∧
    (∀ (env : ProxyEnv) (r : Request) (repoParts : List String) (repo : Repo)
       (tag : Tag) (m : String),
      goSlice (goSplit r.path '/') 2 (((goSplit r.path '/').length : Int) - 2) =
        some repoParts →
      env.parseRepo (String.intercalate "/" repoParts) = Except.ok repo →
      isManifestTagRequest (goSplit r.path '/') = true →
      env.parseTag (repo.str ++ ":" ++ refStr (goSplit r.path '/')) = Except.ok tag →
      env.rekorGet tag = GetResult.err m →
      proxy env r = some (serveErrorResp (newRegError
        ("looking up digest for tag " ++ goQuote tag.str ++ ": " ++ m))) ∧
      (newRegError ("looking up digest for tag " ++ goQuote tag.str ++ ": " ++ m)).status =
        500 ∧
      (newRegError ("looking up digest for tag " ++ goQuote tag.str ++ ": " ++ m)).code =
        "INTERNAL_ERROR") := by
  obtain ⟨m, hrun, hkeys, hnd, hmem⟩ := runEntries_spec ourEmail tagStr entries [] hok
  have hndm : (m.map Prod.fst).Nodup := hnd (by simp)
  have hkeys2 : (m.map Prod.fst).toFinset =
      (rekor.acceptedDigests ourEmail tagStr entries).toFinset := by
    rw [hkeys]; simp
  have hcard : (rekor.acceptedDigests ourEmail tagStr entries).toFinset.card = m.length := by
    rw [← hkeys2, List.toFinset_card_of_nodup hndm, List.length_map]
  refine ⟨?_, ?_, ?_, ?_⟩
  · intro h2
    have hne : entries ≠ [] := by
      intro he
      subst he
      simp [rekor.acceptedDigests] at h2
    have hE : entries.isEmpty = false := by
      cases entries with
      | nil => cases hne rfl
      | cons a t => rfl
    rw [hcard] at h2
    match m, h2, hrun with
    | a :: b :: t, _, hrun =>
      simp only [rekor.Get, hE, Bool.false_eq_true, if_false, hrun]
  · intro d hsing
    have hne : entries ≠ [] := by
      intro he
      subst he
      simp [rekor.acceptedDigests] at hsing
      exact absurd hsing.symm (Finset.singleton_ne_empty d)
    have hE : entries.isEmpty = false := by
      cases entries with
      | nil => cases hne rfl
      | cons a t => rfl
    have hlen1 : m.length = 1 := by
      rw [← hcard, hsing, Finset.card_singleton]
    match m, hlen1, hrun, hkeys2, hmem with
    | [p], _, hrun, hkeys2, hmem =>
      have hp1 : p.1 = d := by
        simp only [List.map_cons, List.map_nil] at hkeys2
        rw [hsing] at hkeys2
        have := Finset.mem_singleton.mp (hkeys2 ▸ List.mem_toFinset.mpr
          (List.mem_singleton_self p.1))
        exact this
      refine ⟨p.2, ?_, ?_⟩
      · simp only [rekor.Get, hE, Bool.false_eq_true, if_false, hrun, ← hp1]
      · rcases hmem p (List.mem_singleton_self p) with h | ⟨q, hq, hacc⟩
        · cases h
        · exact ⟨q, hq, by rw [← hp1]; exact hacc⟩
  · intro hnil
    cases hee : entries with
    | nil => rfl
    | cons a t =>
      have hE : entries.isEmpty = false := by rw [hee]; rfl
      have hm : m = [] := by
        have : (m.map Prod.fst).toFinset = ∅ := by rw [hkeys2, hnil]; rfl
        have h2 : m.map Prod.fst = [] := by
          rw [← List.toFinset_eq_empty_iff]; exact this
        exact List.map_eq_nil_iff.mp h2
      subst hm
      rw [← hee]
      simp only [rekor.Get, hE, Bool.false_eq_true, if_false, hrun]
  · intro env r repoParts repo tag m2 hslice hrepo himt htag hlook
    refine ⟨?_, rfl, rfl⟩
    simp [proxy, hslice, hrepo, himt, htag, hlook]

/-- A second valid entry carrying a different digest for the same tag. -/
def attC3 : rekor.AttDoc :=
  { predicateType := "tlogistry-fetched", digest := "sha256:BBB", tag := "ubuntu:latest" }

def leC3 : rekor.LogEntryAnon :=
  { body := some rawC2, attestation := some attC3, logIndex := 9, integratedTime := 60 }

def feC3 : Option rekor.GetLogEntryResp := some { payload := [leC3] }

def envC3 : ProxyEnv :=
  { parseRepo := fun _ => Except.ok repoUbuntu
    parseTag := fun _ => Except.ok tagLatest
    rekorGet := fun _ => GetResult.err "multiple digests found for ubuntu:latest"
    getToken := fun _ => Except.ok ""
    roundTrip := fun _ => Except.ok urespAAA
    rekorPut := fun _ _ => Except.error "unused"
    rfc3339 := fun t => toString t }

/-- Witness for C3: two conflicting digests error out, one digest is returned,
none yields nothing, and a lookup error surfaces as the 500 response. -/
theorem C3_conflict_cardinality_witness :
    rekor.Get "svc@example.iam.gserviceaccount.com" "ubuntu:latest"
      [("u1", feC2), ("u3", feC3)] =
      GetResult.err ("multiple digests found for " ++ "ubuntu:latest") ∧
    (∃ i, rekor.Get "svc@example.iam.gserviceaccount.com" "ubuntu:latest" [("u2", feC2)] =
        GetResult.found "sha256:AAA" i ∧
      ∃ q ∈ [("u2", feC2)],
        rekor.processEntry "svc@example.iam.gserviceaccount.com" "ubuntu:latest" q.1 q.2 =
          rekor.EntryOutcome.accept "sha256:AAA" i) ∧
    rekor.Get "svc@example.iam.gserviceaccount.com" "ubuntu:latest"
      [("u1", feWrongType)] = GetResult.nothing ∧
    proxy envC3 reqManifest = some (serveErrorResp (newRegError
      ("looking up digest for tag " ++ goQuote "ubuntu:latest" ++ ": " ++
        "multiple digests found for ubuntu:latest"))) :=
  ⟨(C3_conflict_cardinality "svc@example.iam.gserviceaccount.com" "ubuntu:latest"
      [("u1", feC2), ("u3", feC3)] (by decide)).1 (by decide),
   (C3_conflict_cardinality "svc@example.iam.gserviceaccount.com" "ubuntu:latest"
      [("u2", feC2)] (by decide)).2.1 "sha256:AAA" (by decide),
   (C3_conflict_cardinality "svc@example.iam.gserviceaccount.com" "ubuntu:latest"
      [("u1", feWrongType)] (by decide)).2.2.1 (by decide),
   ((C3_conflict_cardinality "svc@example.iam.gserviceaccount.com" "ubuntu:latest"
      [] (by decide)).2.2.2 envC3 reqManifest ["ubuntu"] repoUbuntu tagLatest
      "multiple digests found for ubuntu:latest"
      (by decide) rfl (by decide) rfl rfl).1⟩

def reqBlob : Request :=
  { method := "GET", path := "/v2/ubuntu/blobs/sha256:abc"
    headers := [("Authorization", "Bearer x")] }

def urespLoc : UpstreamResp :=
  { status := 307, headers := [("Location", "https://cdn.example/blob")], body := "BLOBDATA" }

def envC9 : ProxyEnv :=
  { parseRepo := fun _ => Except.ok repoUbuntu
    parseTag := fun _ => Except.ok tagLatest
    rekorGet := fun _ => GetResult.nothing
    getToken := fun _ => Except.ok ""
    roundTrip := fun _ => Except.ok urespLoc
    rekorPut := fun _ _ => Except.error "unused"
    rfc3339 := fun t => toString t }

/-- Witness for C9: a blob request forwards status and headers with no body. -/
theorem C9_blobs_body_not_copied_witness :
    proxy envC9 reqBlob = some
      { status := urespLoc.status, headers := urespLoc.headers, body := Body.empty } :=
  (C9_blobs_body_not_copied envC9 reqBlob ["ubuntu"] repoUbuntu urespLoc
    (by decide) rfl (by decide) rfl).1 (by decide)
